import Mathlib

/-!
Shallow embedding of the OneTap Reply content script
(`src/unnamed/part_000`, with `src/content.js` a simplified variant).
Pure helpers of the script are translated directly; host-DOM state
(documents, elements, selections) is modelled by explicit records, with
CSS-selector matching abstracted as per-element match data supplied by the
modelled document.
-/

namespace OneTap

/-! ### JavaScript string primitives -/

/-- JS `\w` character class: `[A-Za-z0-9_]` (ASCII, as in JS regexps). -/
def isWordChar (c : Char) : Bool := c.isAlphanum || c == '_'

/-- JS `\s` character class (ASCII portion). -/
def isSpaceChar (c : Char) : Bool :=
  c == ' ' || c == '\t' || c == '\n' || c == '\r' || c == '\x0b' || c == '\x0c'

/-- ASCII lowercasing, the effect of JS `toLowerCase()` on the ASCII inputs
handled here. -/
def jsCharToLower (c : Char) : Char :=
  if c.toNat ≥ 65 && c.toNat ≤ 90 then Char.ofNat (c.toNat + 32) else c

def jsToLower (s : String) : String := String.mk (s.toList.map jsCharToLower)

/-- JS `String.prototype.trim`: strip leading and trailing whitespace. -/
def jsTrim (s : String) : String :=
  String.mk (((s.toList.dropWhile isSpaceChar).reverse.dropWhile isSpaceChar).reverse)

/-- JS `substring(0, n)`. -/
def jsTake (s : String) (n : Nat) : String := String.mk (s.toList.take n)

/-- Split a character list on maximal runs of characters satisfying `p`,
keeping the (possibly empty) pieces before, between and after runs.  This is
the behaviour of JS `String.prototype.split` with a regex of the form
`/X+/`: `"!a!".split(/\W+/)` gives `["", "a", ""]`.  `inRun` records whether
the previous character belonged to a separator run. -/
def splitRunsGo (p : Char → Bool) : List Char → Bool → List Char → List String
  | [], _, acc => [String.mk acc.reverse]
  | c :: cs, inRun, acc =>
    if p c then
      if inRun then splitRunsGo p cs true []
      else String.mk acc.reverse :: splitRunsGo p cs true []
    else splitRunsGo p cs false (c :: acc)

def splitRuns (p : Char → Bool) (s : String) : List String :=
  splitRunsGo p s.toList false []

/-- JS `String.prototype.split` with a one-character string separator:
splits at every occurrence, keeping empty pieces. -/
def splitOnCharGo (sep : Char) : List Char → List Char → List String
  | [], acc => [String.mk acc.reverse]
  | c :: cs, acc =>
    if c = sep then String.mk acc.reverse :: splitOnCharGo sep cs []
    else splitOnCharGo sep cs (c :: acc)

def splitOnChar (sep : Char) (s : String) : List String :=
  splitOnCharGo sep s.toList []

/-- JS string truthiness: a string is falsy exactly when it is empty. -/
def strTruthy (s : String) : Bool := s ≠ ""

/-! ### Sentiment analyzer (`analyzeSentiment`, part_000 lines 511-529) -/

def positiveWords : List String :=
  ["love", "great", "awesome", "amazing", "excellent", "wonderful", "fantastic",
   "good", "nice", "happy", "excited", "thrilled", "perfect", "brilliant"]

def negativeWords : List String :=
  ["hate", "bad", "terrible", "awful", "horrible", "sad", "angry",
   "disappointed", "frustrated", "annoyed", "worried", "concerned"]

/-- `text.toLowerCase().split(/\W+/)`. -/
def sentimentTokens (text : String) : List String :=
  splitRuns (fun c => !isWordChar c) (jsToLower text)

/-- Occurrences of positive-lexicon words among the tokens. -/
def positiveCount (text : String) : Nat :=
  (sentimentTokens text).countP (fun w => positiveWords.contains w)

/-- Occurrences of negative-lexicon words among the tokens. -/
def negativeCount (text : String) : Nat :=
  (sentimentTokens text).countP (fun w => negativeWords.contains w)

/-- `analyzeSentiment(text)`: keyword-count sentiment.  `if (!text)` is the
JS falsy test on the string argument. -/
def analyzeSentiment (text : String) : String :=
  if text = "" then "neutral"
  else
    if positiveCount text > negativeCount text then "positive"
    else if negativeCount text > positiveCount text then "negative"
    else "neutral"

/-! ### Topic extractor (`extractTopics`, part_000 lines 534-554) -/

def topicStopWords : List String :=
  ["this", "that", "with", "have", "will", "from", "they", "been", "were",
   "said", "each", "which", "their", "time", "would", "there", "could", "other"]

/-- `.replace(/[^\w\s]/g, '')`: delete every character that is neither a word
character nor whitespace. -/
def stripPunct (s : String) : String :=
  String.mk (s.toList.filter (fun c => isWordChar c || isSpaceChar c))

/-- `text.toLowerCase().replace(/[^\w\s]/g, '').split(/\s+/)` followed by the
two filters (length > 3, not a stop word). -/
def topicWords (text : String) : List String :=
  ((splitRuns isSpaceChar (stripPunct (jsToLower text))).filter
      (fun w => w.length > 3)).filter
    (fun w => !topicStopWords.contains w)

/-- One step of `wordCount[word] = (wordCount[word] || 0) + 1` on the
insertion-ordered entry list of the JS object: bump the existing entry in
place, or append a fresh entry. -/
def bumpKey : List (String × Nat) → String → List (String × Nat)
  | [], w => [(w, 1)]
  | (k, c) :: rest, w =>
    if k = w then (k, c + 1) :: rest else (k, c) :: bumpKey rest w

/-- The `wordCount` object built by the `forEach` loop, as its
insertion-ordered entry list. -/
def buildCount (ws : List String) : List (String × Nat) :=
  ws.foldl bumpKey []

/-- Value of an all-digit string read as a decimal numeral. -/
def decimalVal (s : String) : Nat :=
  s.toList.foldl (fun n c => n * 10 + (c.toNat - 48)) 0

/-- A JS object key is an array-index key when it is the canonical decimal
form of an integer below 2^32 - 1; such keys are enumerated first, in
ascending numeric order, by `Object.entries`. -/
def isArrayIndexKey (s : String) : Bool :=
  s.length > 0 && s.toList.all Char.isDigit &&
    (s == "0" || s.toList.headD '0' != '0') && decimalVal s < 4294967295

def keyNumVal (e : String × Nat) : Nat := decimalVal e.1

/-- `Object.entries(wordCount)`: array-index keys first in ascending numeric
order, then the remaining keys in insertion order. -/
def jsObjectEntries (l : List (String × Nat)) : List (String × Nat) :=
  List.insertionSort (fun a b => keyNumVal a ≤ keyNumVal b)
      (l.filter (fun e => isArrayIndexKey e.1))
    ++ l.filter (fun e => !isArrayIndexKey e.1)

/-- Descending-count comparison used by `.sort(([, a], [, b]) => b - a)`;
`Array.prototype.sort` is stable, which insertion sort models. -/
def countGE (a b : String × Nat) : Prop := b.2 ≤ a.2

instance : DecidableRel countGE := fun a b => Nat.decLe b.2 a.2

/-- The sorted entry list `Object.entries(wordCount).sort(([,a],[,b]) => b - a)`. -/
def sortedTopicEntries (text : String) : List (String × Nat) :=
  List.insertionSort countGE (jsObjectEntries (buildCount (topicWords text)))

/-- `extractTopics(text)`: top-5 most frequent topic words. -/
def extractTopics (text : String) : List String :=
  if text = "" then []
  else ((sortedTopicEntries text).take 5).map Prod.fst

/-- Number of occurrences of `w` among the filtered topic tokens of `text`. -/
def topicFreq (text : String) (w : String) : Nat :=
  (topicWords text).count w

/-! ### Lemmas about the frequency table -/

def lookupCount : List (String × Nat) → String → Nat
  | [], _ => 0
  | (k, c) :: rest, w => if k = w then c else lookupCount rest w

theorem lookupCount_bumpKey_self (l : List (String × Nat)) (w : String) :
    lookupCount (bumpKey l w) w = lookupCount l w + 1 := by
  induction l with
  | nil => simp [bumpKey, lookupCount]
  | cons e rest ih =>
    obtain ⟨k, c⟩ := e
    by_cases hk : k = w <;> simp [bumpKey, lookupCount, hk, ih]

theorem lookupCount_bumpKey_other (l : List (String × Nat)) (w w' : String)
    (h : w' ≠ w) : lookupCount (bumpKey l w) w' = lookupCount l w' := by
  induction l with
  | nil =>
    simp only [bumpKey, lookupCount]
    rw [if_neg (fun he => h he.symm)]
  | cons e rest ih =>
    obtain ⟨k, c⟩ := e
    by_cases hk : k = w
    · have hkw' : ¬k = w' := fun he => h (he.symm.trans hk)
      simp only [bumpKey, if_pos hk, lookupCount]
      rw [if_neg hkw', if_neg hkw']
    · simp only [bumpKey, if_neg hk, lookupCount, ih]

theorem lookupCount_foldl_bumpKey (ws : List String) :
    ∀ (acc : List (String × Nat)) (w : String),
      lookupCount (ws.foldl bumpKey acc) w = lookupCount acc w + ws.count w := by
  induction ws with
  | nil => simp
  | cons t rest ih =>
    intro acc w
    rw [List.foldl_cons, ih]
    by_cases h : t = w
    · subst h
      rw [lookupCount_bumpKey_self, List.count_cons_self]
      omega
    · rw [lookupCount_bumpKey_other _ _ _ (fun he => h he.symm),
        List.count_cons_of_ne (fun he => h he.symm)]

def keysNodup (l : List (String × Nat)) : Prop := (l.map Prod.fst).Nodup

theorem lookupCount_of_mem :
    ∀ (l : List (String × Nat)), keysNodup l →
      ∀ w c, (w, c) ∈ l → lookupCount l w = c := by
  intro l
  induction l with
  | nil => intro _ w c hc; cases hc
  | cons e rest ih =>
    obtain ⟨k, c'⟩ := e
    intro hnd w c hm
    have hnd' : keysNodup rest := by
      simpa [keysNodup] using (List.nodup_cons.mp hnd).2
    have hk : k ∉ rest.map Prod.fst := by
      simpa using (List.nodup_cons.mp hnd).1
    rcases List.mem_cons.mp hm with he | hr
    · obtain ⟨h1, h2⟩ := Prod.mk.injEq .. ▸ he
      simp_all [lookupCount]
    · have hw : w ∈ rest.map Prod.fst := List.mem_map.mpr ⟨(w, c), hr, rfl⟩
      have : k ≠ w := fun he => hk (he ▸ hw)
      simp [lookupCount, this, ih hnd' w c hr]

theorem fst_bumpKey (l : List (String × Nat)) (w : String) :
    (bumpKey l w).map Prod.fst =
      if w ∈ l.map Prod.fst then l.map Prod.fst else l.map Prod.fst ++ [w] := by
  induction l with
  | nil => simp [bumpKey]
  | cons e rest ih =>
    obtain ⟨k, c⟩ := e
    by_cases hk : k = w
    · simp only [bumpKey, if_pos hk, List.map_cons]
      rw [if_pos (hk ▸ List.mem_cons_self k _)]
    · simp only [bumpKey, if_neg hk, List.map_cons, ih]
      by_cases hw : w ∈ rest.map Prod.fst
      · rw [if_pos hw, if_pos (List.mem_cons.mpr (Or.inr hw))]
      · rw [if_neg hw,
          if_neg (fun hmem => by
            rcases List.mem_cons.mp hmem with he | hm
            · exact hk he.symm
            · exact hw hm)]
        simp

theorem keysNodup_bumpKey (l : List (String × Nat)) (w : String)
    (h : keysNodup l) : keysNodup (bumpKey l w) := by
  unfold keysNodup at *
  rw [fst_bumpKey]
  split
  · exact h
  · next hne =>
    refine List.Nodup.append h (List.nodup_singleton _) ?_
    intro a ha hb
    rw [List.mem_singleton] at hb
    exact hne (hb ▸ ha)

theorem keysNodup_foldl_bumpKey (ws : List String) :
    ∀ acc, keysNodup acc → keysNodup (ws.foldl bumpKey acc) := by
  induction ws with
  | nil => intro acc h; simpa using h
  | cons t rest ih =>
    intro acc h
    rw [List.foldl_cons]
    exact ih _ (keysNodup_bumpKey _ _ h)

theorem buildCount_snd_eq_count (ws : List String) (w : String) (c : Nat)
    (hm : (w, c) ∈ buildCount ws) : c = ws.count w := by
  have hnd : keysNodup (buildCount ws) :=
    keysNodup_foldl_bumpKey ws [] (by simp [keysNodup])
  have h1 := lookupCount_of_mem _ hnd w c hm
  have h2 := lookupCount_foldl_bumpKey ws [] w
  unfold buildCount at h1
  rw [h1] at h2
  simpa [lookupCount] using h2

theorem mem_of_mem_jsObjectEntries {e : String × Nat} {l : List (String × Nat)}
    (h : e ∈ jsObjectEntries l) : e ∈ l := by
  unfold jsObjectEntries at h
  rcases List.mem_append.mp h with h | h
  · rw [List.mem_insertionSort] at h
    exact (List.mem_filter.mp h).1
  · exact (List.mem_filter.mp h).1

instance : IsTotal (String × Nat) countGE :=
  ⟨fun a b => by unfold countGE; omega⟩

instance : IsTrans (String × Nat) countGE :=
  ⟨fun a b c h1 h2 => by unfold countGE at *; omega⟩

theorem sorted_sortedTopicEntries (text : String) :
    List.Sorted countGE (sortedTopicEntries text) :=
  List.sorted_insertionSort countGE _

theorem mem_sortedTopicEntries {text : String} {e : String × Nat}
    (h : e ∈ sortedTopicEntries text) : e.2 = topicFreq text e.1 := by
  unfold sortedTopicEntries at h
  rw [List.mem_insertionSort] at h
  obtain ⟨w, c⟩ := e
  exact buildCount_snd_eq_count _ _ _ (mem_of_mem_jsObjectEntries h)

end OneTap

namespace OneTap

/-! ### Claim C6 -/

/-- C6: for every input text, `analyzeSentiment` returns `"positive"` exactly
when the count of positive-lexicon hits among the lowercased, non-word-split
tokens strictly exceeds the negative count, `"negative"` exactly in the
symmetric case, and `"neutral"` exactly on equal counts (including the empty
text, where both counts are zero). -/
theorem analyzeSentiment_trichotomy (text : String) :
    (analyzeSentiment text = "positive" ↔ positiveCount text > negativeCount text) ∧
    (analyzeSentiment text = "negative" ↔ negativeCount text > positiveCount text) ∧
    (analyzeSentiment text = "neutral" ↔ positiveCount text = negativeCount text) := by
  by_cases h : text = ""
  · subst h; decide
  · unfold analyzeSentiment
    rw [if_neg h]
    split_ifs with h1 h2
    · exact ⟨⟨fun _ => h1, fun _ => rfl⟩,
        ⟨fun hc => absurd hc (by decide), fun hc => absurd hc (by omega)⟩,
        ⟨fun hc => absurd hc (by decide), fun hc => absurd hc (by omega)⟩⟩
    · exact ⟨⟨fun hc => absurd hc (by decide), fun hc => absurd hc h1⟩,
        ⟨fun _ => h2, fun _ => rfl⟩,
        ⟨fun hc => absurd hc (by decide), fun hc => absurd hc (by omega)⟩⟩
    · exact ⟨⟨fun hc => absurd hc (by decide), fun hc => absurd hc h1⟩,
        ⟨fun hc => absurd hc (by decide), fun hc => absurd hc h2⟩,
        ⟨fun _ => by omega, fun _ => rfl⟩⟩

/-! ### Claim C5 -/

/-- C5, counterexample: on the spec's own example text the token `fox` has
length 3, so the `word.length > 3` filter discards it and the result is
`["brown", "quick"]`, not the claimed `["brown", "quick", "fox"]` ordering. -/
theorem extractTopics_example_drops_fox :
    extractTopics "the quick quick brown brown brown fox" ≠ ["brown", "quick", "fox"] ∧
    extractTopics "the quick quick brown brown brown fox" = ["brown", "quick"] := by
  decide

/-- C5 (amended): `extractTopics` lowercases, strips punctuation, splits on
whitespace, discards tokens of length ≤ 3 and stop-list tokens, and returns
at most 5 tokens ranked by descending frequency among the filtered tokens
(ties by JS object enumeration order of the frequency table, i.e. first
occurrence, with canonical-integer tokens hoisted first); on the spec's
example the length-3 token `fox` is discarded, giving `["brown", "quick"]`,
and a genuine tie is broken by first occurrence. -/
theorem extractTopics_ranked_by_freq :
    (∀ text : String, (extractTopics text).length ≤ 5 ∧
      (extractTopics text).Chain' (fun a b => topicFreq text b ≤ topicFreq text a)) ∧
    extractTopics "the quick quick brown brown brown fox" = ["brown", "quick"] ∧
    extractTopics "zebra apple apple zebra banana" = ["zebra", "apple", "banana"] := by
  refine ⟨fun text => ?_, by decide, by decide⟩
  by_cases h : text = ""
  · simp [extractTopics, h]
  · unfold extractTopics
    rw [if_neg h]
    constructor
    · simp [Nat.min_le_left 5 (sortedTopicEntries text).length]
    · have hs : ((sortedTopicEntries text).take 5).Pairwise countGE :=
        (sorted_sortedTopicEntries text).sublist (List.take_sublist 5 _)
      have hmem : ∀ e ∈ (sortedTopicEntries text).take 5,
          e.2 = topicFreq text e.1 := by
        intro e he
        exact mem_sortedTopicEntries ((List.take_sublist 5 _).mem he)
      have hp : ((sortedTopicEntries text).take 5).Pairwise
          (fun a b => topicFreq text b.1 ≤ topicFreq text a.1) := by
        refine hs.imp_of_mem ?_
        intro a b ha hb hab
        rw [← hmem a ha, ← hmem b hb]
        exact hab
      exact (List.pairwise_map.mpr hp).chain'

end OneTap

namespace OneTap

/-! ### Comment-box scanner model
(`findCommentBoxes` / `scanForCommentBoxes` / `startUrlChangeListener`)

A document is the ordered list of its elements.  CSS matching is abstracted:
each element carries the set of indices of the platform's comment-box
selectors it matches (the CSS engine is host functionality, not part of the
script).  Identity of a live DOM node is its `id` field; attributes are a
list of attribute names present on the node. -/

structure PageElement where
  id : Nat
  matchesSel : List Nat
  hasOffsetParent : Bool
  width : Nat
  height : Nat
  attrs : List String
  deriving DecidableEq, Repr

structure PageDoc where
  elems : List PageElement
  deriving DecidableEq, Repr

def processedAttr : String := "data-onetap-processed"

/-- `document.querySelectorAll(sel)` for the selector with index `selIdx`,
in document order. -/
def querySelectorAll (d : PageDoc) (selIdx : Nat) : List PageElement :=
  d.elems.filter (fun e => e.matchesSel.contains selIdx)

/-- `isValidCommentBox` (part_000 lines 185-191): the element must have an
`offsetParent` and a client rect with positive width and height. -/
def isValidCommentBox (e : PageElement) : Bool :=
  e.hasOffsetParent && decide (e.width > 0) && decide (e.height > 0)

/-- Both platform selector lists have four entries; selectors are abstracted
by index 0..3.  The literal selector strings are valid, so the per-selector
`catch` in `findCommentBoxes` is never exercised. -/
def selectorIdxs : List Nat := [0, 1, 2, 3]

/-- `findCommentBoxes` (part_000 lines 142-180): for each selector in order,
query all matches and push the valid ones onto `boxes`. -/
def findCommentBoxes (d : PageDoc) : List PageElement :=
  selectorIdxs.foldl
    (fun boxes i => boxes ++ (querySelectorAll d i).filter isValidCommentBox) []

/-- `hasAttribute('data-onetap-processed')` read on the live node with
identity `i`. -/
def hasProcessed (d : PageDoc) (i : Nat) : Bool :=
  d.elems.any (fun e => e.id == i && e.attrs.contains processedAttr)

/-- `setAttribute('data-onetap-processed', 'true')` applied to the live node
with identity `i`. -/
def markElem (i : Nat) (e : PageElement) : PageElement :=
  if e.id == i && !e.attrs.contains processedAttr then
    { e with attrs := e.attrs ++ [processedAttr] }
  else e

def markProcessed (d : PageDoc) (i : Nat) : PageDoc :=
  ⟨d.elems.map (markElem i)⟩

/-- One iteration of the `commentBoxes.forEach` loop in `scanForCommentBoxes`
(part_000 lines 128-137): skip boxes already carrying the processed marker,
otherwise inject UI (recorded by id) and set the marker immediately. -/
def scanStep (st : PageDoc × List Nat) (box : PageElement) : PageDoc × List Nat :=
  if hasProcessed st.1 box.id then st
  else (markProcessed st.1 box.id, st.2 ++ [box.id])

/-- `scanForCommentBoxes`: returns the updated document and the ids of the
boxes that received a UI injection during this scan. -/
def scanForCommentBoxes (d : PageDoc) : PageDoc × List Nat :=
  (findCommentBoxes d).foldl scanStep (d, [])

/-- `removeAttribute('data-onetap-processed')`. -/
def clearElem (e : PageElement) : PageElement :=
  { e with attrs := e.attrs.filter (fun a => a ≠ processedAttr) }

/-- The URL-poll callback of `startUrlChangeListener` (part_000 lines
1093-1107): when the location changed, remember the new URL, remove the
processed marker from every element carrying it, and schedule a rescan
2000 ms later.  Returns the updated document, the remembered URL and the
list of scheduled rescan delays. -/
def urlChangeTick (d : PageDoc) (lastUrl href : String) :
    PageDoc × String × List Nat :=
  if href ≠ lastUrl then
    (⟨d.elems.map clearElem⟩, href, [2000])
  else (d, lastUrl, [])

/-! ### Scanner lemmas -/

/-- Is an element with identity `i` present in the document? -/
def idPresent (d : PageDoc) (i : Nat) : Bool :=
  d.elems.any (fun e => e.id == i)

/-- Identities of the boxes a scan would find. -/
def findIds (d : PageDoc) : List Nat :=
  (findCommentBoxes d).map PageElement.id

theorem markElem_id (i : Nat) (e : PageElement) : (markElem i e).id = e.id := by
  unfold markElem; split <;> rfl

theorem markElem_matchesSel (i : Nat) (e : PageElement) :
    (markElem i e).matchesSel = e.matchesSel := by
  unfold markElem; split <;> rfl

theorem markElem_valid (i : Nat) (e : PageElement) :
    isValidCommentBox (markElem i e) = isValidCommentBox e := by
  unfold markElem isValidCommentBox; split <;> rfl

theorem markElem_contains_mono {e : PageElement} (i : Nat)
    (h : e.attrs.contains processedAttr = true) :
    (markElem i e).attrs.contains processedAttr = true := by
  unfold markElem
  simp only [h]
  split <;> simp_all

theorem markElem_marks {e : PageElement} {i : Nat} (h : e.id = i) :
    (markElem i e).attrs.contains processedAttr = true := by
  unfold markElem
  by_cases hm : processedAttr ∈ e.attrs
  · rw [if_neg (by simp [hm])]
    simpa using hm
  · rw [if_pos (by simp [h, hm])]
    simp

theorem hasProcessed_mark_mono {d : PageDoc} {j : Nat} (i : Nat)
    (h : hasProcessed d j = true) : hasProcessed (markProcessed d i) j = true := by
  unfold hasProcessed markProcessed at *
  simp only [List.any_eq_true] at *
  obtain ⟨e, he, hp⟩ := h
  rw [Bool.and_eq_true] at hp
  refine ⟨markElem i e, List.mem_map_of_mem _ he, ?_⟩
  rw [Bool.and_eq_true]
  exact ⟨(markElem_id i e).symm ▸ hp.1, markElem_contains_mono i hp.2⟩

theorem hasProcessed_mark_self {d : PageDoc} {i : Nat}
    (h : idPresent d i = true) : hasProcessed (markProcessed d i) i = true := by
  unfold idPresent at h
  unfold hasProcessed markProcessed
  simp only [List.any_eq_true] at h ⊢
  obtain ⟨e, he, hid⟩ := h
  refine ⟨markElem i e, List.mem_map_of_mem _ he, ?_⟩
  rw [Bool.and_eq_true]
  exact ⟨(markElem_id i e).symm ▸ hid, markElem_marks (by simpa using hid)⟩

theorem idPresent_mark (d : PageDoc) (i k : Nat) :
    idPresent (markProcessed d k) i = idPresent d i := by
  unfold idPresent markProcessed
  rw [List.any_map]
  congr 1
  funext e
  simp [Function.comp, markElem_id]

theorem foldl_append_bind (f : Nat → List PageElement) (l : List Nat)
    (init : List PageElement) :
    l.foldl (fun acc i => acc ++ f i) init = init ++ l.flatMap f := by
  induction l generalizing init with
  | nil => simp
  | cons a l ih => simp [ih, List.append_assoc]

theorem findCommentBoxes_eq_bind (d : PageDoc) :
    findCommentBoxes d =
      selectorIdxs.flatMap (fun i => (querySelectorAll d i).filter isValidCommentBox) := by
  unfold findCommentBoxes
  rw [foldl_append_bind]
  simp

theorem mem_findCommentBoxes {d : PageDoc} {e : PageElement}
    (h : e ∈ findCommentBoxes d) :
    e ∈ d.elems ∧ isValidCommentBox e = true ∧
      ∃ i ∈ selectorIdxs, e.matchesSel.contains i = true := by
  rw [findCommentBoxes_eq_bind, List.mem_flatMap] at h
  obtain ⟨i, hi, hmem⟩ := h
  rw [List.mem_filter] at hmem
  obtain ⟨hq, hv⟩ := hmem
  unfold querySelectorAll at hq
  rw [List.mem_filter] at hq
  exact ⟨hq.1, hv, i, hi, hq.2⟩

theorem querySelectorAll_mark (d : PageDoc) (i j : Nat) :
    querySelectorAll (markProcessed d i) j =
      (querySelectorAll d j).map (markElem i) := by
  unfold querySelectorAll markProcessed
  rw [List.filter_map]
  congr 1
  apply List.filter_congr
  intro e _
  simp [Function.comp, markElem_matchesSel]

theorem findCommentBoxes_mark (d : PageDoc) (i : Nat) :
    findCommentBoxes (markProcessed d i) =
      (findCommentBoxes d).map (markElem i) := by
  rw [findCommentBoxes_eq_bind, findCommentBoxes_eq_bind, List.map_flatMap]
  congr 1
  funext j
  rw [querySelectorAll_mark, List.filter_map]
  congr 1
  apply List.filter_congr
  intro e _
  simp [Function.comp, markElem_valid]

theorem findIds_mark (d : PageDoc) (i : Nat) :
    findIds (markProcessed d i) = findIds d := by
  unfold findIds
  rw [findCommentBoxes_mark, List.map_map]
  apply List.map_congr_left
  intro e _
  exact markElem_id i e

theorem hasProcessed_scanStep_mono {st : PageDoc × List Nat} {b : PageElement}
    {j : Nat} (h : hasProcessed st.1 j = true) :
    hasProcessed (scanStep st b).1 j = true := by
  unfold scanStep
  split
  · exact h
  · exact hasProcessed_mark_mono _ h

theorem idPresent_scanStep (st : PageDoc × List Nat) (b : PageElement) (i : Nat) :
    idPresent (scanStep st b).1 i = idPresent st.1 i := by
  unfold scanStep
  split
  · rfl
  · exact idPresent_mark _ _ _

theorem findIds_scanStep (st : PageDoc × List Nat) (b : PageElement) :
    findIds (scanStep st b).1 = findIds st.1 := by
  unfold scanStep
  split
  · rfl
  · exact findIds_mark _ _

/-- Invariants of the `forEach` loop of `scanForCommentBoxes`: everything
injected is marked, nothing is injected twice, every visited box ends up
marked, marks are monotone, and the set of elements (hence of findable box
ids) is unchanged. -/
theorem scan_foldl_spec (bs : List PageElement) :
    ∀ st : PageDoc × List Nat,
      (∀ b ∈ bs, idPresent st.1 b.id = true) →
      (∀ j ∈ st.2, hasProcessed st.1 j = true) →
      st.2.Nodup →
      (∀ j ∈ (bs.foldl scanStep st).2, hasProcessed (bs.foldl scanStep st).1 j = true) ∧
      (bs.foldl scanStep st).2.Nodup ∧
      (∀ b ∈ bs, hasProcessed (bs.foldl scanStep st).1 b.id = true) ∧
      (∀ j, hasProcessed st.1 j = true → hasProcessed (bs.foldl scanStep st).1 j = true) ∧
      findIds (bs.foldl scanStep st).1 = findIds st.1 := by
  induction bs with
  | nil =>
    intro st h1 h2 h3
    exact ⟨h2, h3, by simp, fun _ h => h, rfl⟩
  | cons b rest ih =>
    intro st h1 h2 h3
    rw [List.foldl_cons]
    have hbid : idPresent st.1 b.id = true := h1 b (List.mem_cons_self b rest)
    have hsp2 : ∀ j ∈ (scanStep st b).2, hasProcessed (scanStep st b).1 j = true := by
      intro j hj
      unfold scanStep at hj ⊢
      by_cases hp : hasProcessed st.1 b.id = true
      · rw [if_pos hp] at hj ⊢
        exact h2 j hj
      · rw [if_neg hp] at hj ⊢
        rcases List.mem_append.mp hj with hj | hj
        · exact hasProcessed_mark_mono _ (h2 j hj)
        · rw [List.mem_singleton] at hj
          rw [hj]
          exact hasProcessed_mark_self hbid
    have hsp3 : (scanStep st b).2.Nodup := by
      unfold scanStep
      by_cases hp : hasProcessed st.1 b.id = true
      · rw [if_pos hp]; exact h3
      · rw [if_neg hp]
        refine List.Nodup.append h3 (List.nodup_singleton _) ?_
        intro a ha hb'
        rw [List.mem_singleton] at hb'
        exact hp (hb' ▸ h2 a ha)
    have hsp1 : ∀ b' ∈ rest, idPresent (scanStep st b).1 b'.id = true := by
      intro b' hb'
      rw [idPresent_scanStep]
      exact h1 b' (List.mem_cons_of_mem b hb')
    obtain ⟨c1, c2, c3, c4, c5⟩ := ih (scanStep st b) hsp1 hsp2 hsp3
    refine ⟨c1, c2, ?_, ?_, by rw [c5, findIds_scanStep]⟩
    · intro b' hb'
      rcases List.mem_cons.mp hb' with hb' | hb'
      · subst hb'
        apply c4
        unfold scanStep
        by_cases hp : hasProcessed st.1 b'.id = true
        · rw [if_pos hp]; exact hp
        · rw [if_neg hp]
          exact hasProcessed_mark_self hbid
      · exact c3 b' hb'
    · intro j hj
      exact c4 j (hasProcessed_scanStep_mono hj)

theorem scan_foldl_no_new (bs : List PageElement) :
    ∀ st : PageDoc × List Nat,
      (∀ b ∈ bs, hasProcessed st.1 b.id = true) → bs.foldl scanStep st = st := by
  induction bs with
  | nil => intro st _; rfl
  | cons b rest ih =>
    intro st h
    rw [List.foldl_cons]
    have hb : scanStep st b = st := by
      unfold scanStep
      rw [if_pos (h b (List.mem_cons_self b rest))]
    rw [hb]
    exact ih st (fun b' hb' => h b' (List.mem_cons_of_mem b hb'))

theorem idPresent_of_mem_findCommentBoxes {d : PageDoc} {b : PageElement}
    (h : b ∈ findCommentBoxes d) : idPresent d b.id = true := by
  rw [idPresent, List.any_eq_true]
  exact ⟨b, (mem_findCommentBoxes h).1, by simp⟩

/-! ### Claims C3, C10, C4 -/

/-- A document with a single visible, unprocessed comment box that matches
two of the platform's selectors (e.g. a LinkedIn `.ql-editor` inside both a
`.comments-comment-box` and a `div[data-placeholder*="comment"]`). -/
def dupDoc : PageDoc := ⟨[⟨0, [0, 2], true, 10, 10, []⟩]⟩

/-- C3, counterexample: `findCommentBoxes` neither removes duplicates nor
discards already-processed elements, so an element matching two selectors is
returned twice, and a second scan with no DOM change returns the same
non-empty list rather than an empty result. -/
theorem findCommentBoxes_dup_not_removed :
    (findCommentBoxes dupDoc).map PageElement.id = [0, 0] ∧
    ¬(findCommentBoxes dupDoc).Nodup ∧
    findCommentBoxes (scanForCommentBoxes dupDoc).1 ≠ [] ∧
    (findCommentBoxes (scanForCommentBoxes dupDoc).1).map PageElement.id = [0, 0] := by
  decide

/-- C3 (amended): `findCommentBoxes` returns the order-preserving
concatenation of the per-selector matches that are visible (offsetParent with
non-zero width and height), retaining duplicates and elements already carrying
the processed marker; the marker is consulted at injection time instead, so a
second `scanForCommentBoxes` with no DOM change in between performs zero UI
injections. -/
theorem scan_twice_injects_nothing (d : PageDoc) :
    (∀ e ∈ findCommentBoxes d, e ∈ d.elems ∧ isValidCommentBox e = true ∧
      ∃ i ∈ selectorIdxs, e.matchesSel.contains i = true) ∧
    (scanForCommentBoxes (scanForCommentBoxes d).1).2 = [] := by
  refine ⟨fun e he => mem_findCommentBoxes he, ?_⟩
  obtain ⟨-, -, hmarked, -, hids⟩ :=
    scan_foldl_spec (findCommentBoxes d) (d, [])
      (fun b hb => idPresent_of_mem_findCommentBoxes hb)
      (by simp) (by simp)
  unfold scanForCommentBoxes
  rw [scan_foldl_no_new]
  intro b hb
  have hmem : b.id ∈ findIds ((findCommentBoxes d).foldl scanStep (d, [])).1 :=
    List.mem_map_of_mem _ hb
  rw [hids] at hmem
  obtain ⟨b', hb', hbid⟩ := List.mem_map.mp hmem
  exact hbid ▸ hmarked b' hb'

/-- C3, witness for the amended theorem at the concrete document `dupDoc`. -/
theorem scan_twice_injects_nothing_witness :
    (scanForCommentBoxes (scanForCommentBoxes dupDoc).1).2 = [] ∧
    isValidCommentBox ⟨0, [0, 2], true, 10, 10, []⟩ = true :=
  ⟨(scan_twice_injects_nothing dupDoc).2,
   ((scan_twice_injects_nothing dupDoc).1 ⟨0, [0, 2], true, 10, 10, []⟩
      (by decide)).2.1⟩

/-- C10: within a single scan cycle each element receives at most one UI
injection, even when `findCommentBoxes` yields the same element several times
(matched by several selectors): the processed marker is set immediately after
injecting inside the same loop iteration, so the list of injected element
identities has no duplicates. -/
theorem scan_injects_each_box_at_most_once (d : PageDoc) :
    ((scanForCommentBoxes d).2).Nodup :=
  (scan_foldl_spec (findCommentBoxes d) (d, [])
    (fun b hb => idPresent_of_mem_findCommentBoxes hb)
    (by simp) (by simp)).2.1

/-- A document whose single comment box already carries the processed marker
(e.g. after a previous scan on the old route). -/
def staleDoc : PageDoc := ⟨[⟨5, [1], true, 3, 4, [processedAttr]⟩]⟩

/-- C4: on every detected URL change the poll callback of
`startUrlChangeListener` removes the processed marker from every element
carrying it (so no element is considered processed afterwards and previously
processed boxes are fresh candidates for the next scan), remembers the new
URL, and schedules exactly one rescan 2000 ms later. -/
theorem urlChange_clears_markers_and_schedules
    (d : PageDoc) (lastUrl href : String) (h : href ≠ lastUrl) :
    (∀ e ∈ (urlChangeTick d lastUrl href).1.elems, processedAttr ∉ e.attrs) ∧
    (∀ i, hasProcessed (urlChangeTick d lastUrl href).1 i = false) ∧
    (urlChangeTick d lastUrl href).2.1 = href ∧
    (urlChangeTick d lastUrl href).2.2 = [2000] := by
  unfold urlChangeTick
  rw [if_pos h]
  refine ⟨?_, ?_, rfl, rfl⟩
  · intro e he hmem
    obtain ⟨e₀, _, rfl⟩ := List.mem_map.mp he
    have := (List.mem_filter.mp hmem).2
    simp at this
  · intro i
    rw [hasProcessed]
    apply List.any_eq_false.mpr
    intro e he
    obtain ⟨e₀, _, rfl⟩ := List.mem_map.mp he
    intro hc
    rw [Bool.and_eq_true] at hc
    have hc2 := hc.2
    rw [clearElem] at hc2
    simp at hc2

/-- C4, witness at a concrete document carrying a processed marker. -/
theorem urlChange_clears_markers_witness :
    hasProcessed (urlChangeTick staleDoc "https://a/1" "https://a/2").1 5 = false ∧
    (urlChangeTick staleDoc "https://a/1" "https://a/2").2.2 = [2000] :=
  ⟨(urlChange_clears_markers_and_schedules staleDoc "https://a/1" "https://a/2"
      (by decide)).2.1 5,
   (urlChange_clears_markers_and_schedules staleDoc "https://a/1" "https://a/2"
      (by decide)).2.2.2⟩

end OneTap

namespace OneTap

/-! ### Insertion adapter model (`escapeHtml` / `insertReply` / `setCursorToEnd`)

Element state for the insertion targets.  `value`/`selStart`/`selEnd` model a
text control's API value and selection; `innerHTML` is the serialized markup
of the element's children and `textContent` their concatenated text data. -/

inductive Platform
  | youtube
  | linkedin
  deriving DecidableEq, Repr

/-- Kind of an insertion target: YouTube contenteditable div, YouTube
textarea, LinkedIn Quill editor (carries the `ql-editor` class), or any
other element. -/
inductive BoxKind
  | contentEditable
  | textarea
  | qlEditor
  | otherBox
  deriving DecidableEq, Repr

structure CommentBox where
  kind : BoxKind
  value : String
  selStart : Nat
  selEnd : Nat
  textContent : String
  innerHTML : String
  deriving DecidableEq, Repr

/-- HTML fragment serialization of one text-node character: `&`, `<` and `>`
are escaped, everything else passes through. -/
def escChar (c : Char) : List Char :=
  if c = '&' then ['&', 'a', 'm', 'p', ';']
  else if c = '<' then ['&', 'l', 't', ';']
  else if c = '>' then ['&', 'g', 't', ';']
  else [c]

def escChars : List Char → List Char
  | [] => []
  | c :: cs => escChar c ++ escChars cs

/-- Reading `innerHTML` back from an element whose content is a single text
node holding `s` (the HTML fragment serialization algorithm). -/
def serializeText (s : String) : String := String.mk (escChars s.toList)

/-- `element.textContent = s`: the children become one text node holding
exactly `s`; the serialized markup escapes it. -/
def setTextContent (b : CommentBox) (s : String) : CommentBox :=
  { b with textContent := s, innerHTML := serializeText s }

/-- `element.innerHTML = h`: `h` is parsed as markup and becomes the
element's content.  (The parsed text data is never read afterwards, so
`textContent` is left unmodelled here.) -/
def setInnerHTML (b : CommentBox) (h : String) : CommentBox :=
  { b with innerHTML := h }

/-- Setting a text control's `value` (WHATWG HTML): set the raw value and,
if the new API value differs from the old one, move the text entry cursor to
the end of the control, unselecting any selected text. -/
def setValue (b : CommentBox) (s : String) : CommentBox :=
  if s = b.value then { b with value := s }
  else { b with value := s, selStart := s.length, selEnd := s.length }

/-- `escapeHtml` (part_000 lines 971-975): assign `textContent` on a scratch
div and read `innerHTML` back. -/
def escapeHtml (text : String) : String :=
  (setTextContent ⟨.otherBox, "", 0, 0, "", ""⟩ text).innerHTML

/-- The `try` block of `setCursorToEnd` builds a collapsed DOM Range after
the element's last child and installs it as the document selection.  None of
`createRange`/`setStartAfter`/`setStart`/`collapse`/`removeAllRanges`/
`addRange` throws for the elements handled here, and the document selection
is distinct from a text control's own `selectionStart`/`selectionEnd`, so
the element state is returned unchanged. -/
def rangeSelectPath (b : CommentBox) : Except Unit CommentBox := .ok b

/-- `setCursorToEnd` (part_000 lines 1028-1048): Range path, with the
`catch` falling back to `setSelectionRange(value.length, value.length)`. -/
def setCursorToEnd (b : CommentBox) : CommentBox :=
  match rangeSelectPath b with
  | .ok b' => b'
  | .error _ => { b with selStart := b.value.length, selEnd := b.value.length }

/-- `insertReply` (part_000 lines 980-1023): platform- and kind-directed
write of the reply into the box, followed by `setCursorToEnd`.  The
synthesized `input`/`change`/`blur` events and the initial `focus()` have no
effect on the state modelled here. -/
def insertReply (platform : Platform) (replyText : String) (b : CommentBox) :
    CommentBox :=
  let b' :=
    match platform with
    | .youtube =>
      match b.kind with
      | .contentEditable => setTextContent b replyText
      | .textarea => setValue b replyText
      | _ => b
    | .linkedin =>
      match b.kind with
      | .qlEditor => setInnerHTML b ("<p>" ++ replyText ++ "</p>")
      | _ => setTextContent b replyText
  setCursorToEnd b'

/-- Substring test used to state the markup-injection claims. -/
def startsWithL : List Char → List Char → Bool
  | _, [] => true
  | [], _ :: _ => false
  | h :: hs, p :: ps => h == p && startsWithL hs ps

def hasSubL : List Char → List Char → Bool
  | [], pat => startsWithL [] pat
  | h :: t, pat => startsWithL (h :: t) pat || hasSubL t pat

def containsSub (s pat : String) : Bool := hasSubL s.toList pat.toList

theorem escChar_no_lt (c : Char) : '<' ∉ escChar c := by
  unfold escChar
  split_ifs with h1 h2 h3
  · decide
  · decide
  · decide
  · intro hmem
    rw [List.mem_singleton] at hmem
    exact h2 hmem.symm

theorem escChars_no_lt (l : List Char) : '<' ∉ escChars l := by
  induction l with
  | nil => simp [escChars]
  | cons c cs ih =>
    intro hmem
    rcases List.mem_append.mp hmem with h | h
    · exact escChar_no_lt c h
    · exact ih h

theorem mem_of_hasSubL :
    ∀ (hay pat rest : List Char) (c : Char),
      pat = c :: rest → hasSubL hay pat = true → c ∈ hay := by
  intro hay
  induction hay with
  | nil =>
    intro pat rest c hp h
    rw [hp] at h
    simp [hasSubL, startsWithL] at h
  | cons h t ih =>
    intro pat rest c hp hs
    rw [hp] at hs
    rw [hasSubL, Bool.or_eq_true] at hs
    rcases hs with hs | hs
    · rw [startsWithL, Bool.and_eq_true] at hs
      have : h = c := by simpa using hs.1
      exact this ▸ List.mem_cons_self h t
    · exact List.mem_cons_of_mem h (ih (c :: rest) rest c rfl hs)

theorem containsSub_script_false_of_escaped (s : String) :
    containsSub (serializeText s) "<script>" = false := by
  rw [Bool.eq_false_iff]
  intro hc
  unfold containsSub at hc
  have hmem : '<' ∈ (serializeText s).toList :=
    mem_of_hasSubL _ _ ("<script>".toList.tail) '<' rfl hc
  exact escChars_no_lt s.toList hmem

/-! ### Claims C2 and C8 -/

/-- A visible, empty LinkedIn Quill editor comment box. -/
def qlBox : CommentBox := ⟨.qlEditor, "", 0, 0, "", ""⟩

def scriptReply : String := "<script>alert(1)</script>"

/-- C2, counterexample: the LinkedIn rich-text (`ql-editor`) insertion path
interpolates the raw reply into `innerHTML` without `escapeHtml`, so a reply
containing `<script>` reaches the editor's markup verbatim (while
`escapeHtml`, which is applied only to the suggestion panel's display, would
have neutralized it). -/
theorem insertReply_linkedin_writes_raw_markup :
    (insertReply .linkedin scriptReply qlBox).innerHTML
        = "<p><script>alert(1)</script></p>" ∧
    containsSub (insertReply .linkedin scriptReply qlBox).innerHTML "<script>" = true ∧
    containsSub (escapeHtml scriptReply) "<script>" = false ∧
    escapeHtml scriptReply ≠ scriptReply := by
  refine ⟨rfl, by decide, by decide, by decide⟩

/-- C2 (amended): insertion into the YouTube rich-text (contenteditable)
comment box is inert for every reply — the text is written via
`textContent`, whose markup serialization escapes `&`, `<`, `>`, so the
element's markup never contains a raw `<script>`; and `escapeHtml`
neutralizes every string.  The LinkedIn `ql-editor` insertion path, however,
writes the raw reply into `innerHTML` unescaped (see the counterexample), so
the claim holds only for the YouTube rich-text path and the panel display,
not for LinkedIn rich-text insertion. -/
theorem insertReply_youtube_contentEditable_inert
    (replyText v t h0 : String) (s e : Nat) :
    (insertReply .youtube replyText ⟨.contentEditable, v, s, e, t, h0⟩).textContent
        = replyText ∧
    (insertReply .youtube replyText ⟨.contentEditable, v, s, e, t, h0⟩).innerHTML
        = escapeHtml replyText ∧
    containsSub
      (insertReply .youtube replyText ⟨.contentEditable, v, s, e, t, h0⟩).innerHTML
      "<script>" = false ∧
    (∀ x : String, containsSub (escapeHtml x) "<script>" = false) := by
  refine ⟨rfl, rfl, ?_, fun x => ?_⟩
  · exact containsSub_script_false_of_escaped replyText
  · exact containsSub_script_false_of_escaped x

/-- A YouTube textarea comment box whose value is already `"hi"`, with the
selection at the start. -/
def taBox : CommentBox := ⟨.textarea, "hi", 0, 0, "", ""⟩

/-- C8, counterexample: inserting a reply equal to the textarea's current
value leaves the prior selection where it was.  The value setter moves the
caret only when the API value actually changes (WHATWG), and the Range-based
`setCursorToEnd` path completes without touching a text control's own
selection, so its `setSelectionRange` fallback never runs: the final
selection is 0, not the inserted text's length 2. -/
theorem insertReply_textarea_caret_not_moved :
    (insertReply .youtube "hi" taBox).selStart = 0 ∧
    (insertReply .youtube "hi" taBox).selEnd = 0 ∧
    (insertReply .youtube "hi" taBox).selStart ≠ "hi".length := by
  decide

/-- C8 (amended): for a plain value-based (textarea) comment box, whenever
the inserted reply differs from the box's current value, insertion followed
by the caret-placement step leaves the control's selection collapsed at the
end of the inserted text (selection start = selection end = text length).
The caret movement comes from the `value` setter; the explicit
caret-placement step's Range path succeeds without affecting a text
control's selection, and when the value is unchanged the prior selection
persists (see the counterexample). -/
theorem insertReply_textarea_selection_at_end
    (replyText v t h0 : String) (s e : Nat) (h : v ≠ replyText) :
    (insertReply .youtube replyText ⟨.textarea, v, s, e, t, h0⟩).selStart
        = replyText.length ∧
    (insertReply .youtube replyText ⟨.textarea, v, s, e, t, h0⟩).selEnd
        = replyText.length := by
  unfold insertReply setCursorToEnd rangeSelectPath setValue
  rw [if_neg (fun he => h he.symm)]
  exact ⟨rfl, rfl⟩

/-- C8, witness: inserting `"hello"` into an empty textarea leaves the
selection collapsed at offset 5. -/
theorem insertReply_textarea_selection_at_end_witness :
    (insertReply .youtube "hello" ⟨.textarea, "", 0, 0, "", ""⟩).selStart = 5 ∧
    (insertReply .youtube "hello" ⟨.textarea, "", 0, 0, "", ""⟩).selEnd = 5 := by
  have h := insertReply_textarea_selection_at_end "hello" "" "" "" 0 0 (by decide)
  exact ⟨h.1.trans (by decide), h.2.trans (by decide)⟩

end OneTap

namespace OneTap

/-! ### Claim C7: at most one active suggestion surface

Panel lifecycle state: identities of the option panels currently attached to
the DOM, the `activeUI` pointer, and a supply of fresh identities for
`createOptionsPanel`.  The three operations that touch this state are
`showReplyOptions`, `hideActiveUI` and `handleClickOutside`; each handler
runs to completion before the next user event (the `await` in
`showReplyOptions` resumes on the microtask queue, which drains before any
further click event is dispatched, so the body is atomic with respect to
other handlers). -/

structure UiState where
  panels : List Nat
  activeUI : Option Nat
  nextId : Nat
  deriving DecidableEq, Repr

/-- `hideActiveUI` (part_000 lines 1070-1077): `activeUI.remove()` detaches
the active panel, then both pointers are nulled. -/
def hideActiveUI (s : UiState) : UiState :=
  match s.activeUI with
  | some p => { s with panels := s.panels.erase p, activeUI := none }
  | none => s

/-- `showReplyOptions` (part_000 lines 286-304): remove any existing panel
first, then create a fresh panel, append it, and point `activeUI` at it. -/
def showReplyOptions (s : UiState) : UiState :=
  let s' := hideActiveUI s
  { panels := s'.panels ++ [s'.nextId], activeUI := some s'.nextId,
    nextId := s'.nextId + 1 }

/-- `handleClickOutside` (part_000 lines 1061-1065): hide the panel when a
click lands outside it. -/
def handleClickOutside (s : UiState) (targetInsidePanel : Bool) : UiState :=
  match s.activeUI with
  | some _ => if targetInsidePanel then s else hideActiveUI s
  | none => s

inductive UiEvent
  | openPanel
  | closePanel
  | click (insidePanel : Bool)
  deriving DecidableEq, Repr

def uiStep (s : UiState) : UiEvent → UiState
  | .openPanel => showReplyOptions s
  | .closePanel => hideActiveUI s
  | .click inside => handleClickOutside s inside

def initUiState : UiState := ⟨[], none, 0⟩

def runUi (evs : List UiEvent) : UiState := evs.foldl uiStep initUiState

/-- The invariant: the attached panels are exactly the active one (or none). -/
def UiInv (s : UiState) : Prop :=
  match s.activeUI with
  | some p => s.panels = [p]
  | none => s.panels = []

theorem uiInv_hide {s : UiState} (h : UiInv s) : UiInv (hideActiveUI s) := by
  obtain ⟨pl, active, nid⟩ := s
  cases active with
  | none => exact h
  | some p =>
    have hp : pl = [p] := h
    show pl.erase p = []
    rw [hp]
    simp

theorem hideActiveUI_active {s : UiState} (h : UiInv s) :
    (hideActiveUI s).activeUI = none ∧ (hideActiveUI s).panels = [] := by
  obtain ⟨pl, active, nid⟩ := s
  cases active with
  | none => exact ⟨rfl, h⟩
  | some p =>
    have hp : pl = [p] := h
    refine ⟨rfl, ?_⟩
    show pl.erase p = []
    rw [hp]
    simp

theorem uiInv_step (s : UiState) (ev : UiEvent) (h : UiInv s) :
    UiInv (uiStep s ev) := by
  cases ev with
  | openPanel =>
    obtain ⟨-, hp⟩ := hideActiveUI_active h
    show (hideActiveUI s).panels ++ [(hideActiveUI s).nextId]
        = [(hideActiveUI s).nextId]
    rw [hp]
    rfl
  | closePanel => exact uiInv_hide h
  | click inside =>
    obtain ⟨pl, active, nid⟩ := s
    cases active with
    | none => exact h
    | some p =>
      cases inside
      · exact uiInv_hide h
      · exact h

theorem uiInv_runUi (evs : List UiEvent) : UiInv (runUi evs) := by
  unfold runUi
  have hfold : ∀ s, UiInv s → UiInv (evs.foldl uiStep s) := by
    induction evs with
    | nil => intro s h; exact h
    | cons ev rest ih =>
      intro s h
      rw [List.foldl_cons]
      exact ih _ (uiInv_step s ev h)
  exact hfold initUiState rfl

/-- C7: at most one suggestion surface exists at any time, across every
sequence of open/close/click events: every operation that opens a surface
first tears the previous one down, so the set of attached panels never has
two elements and the `activeUI` pointer always refers to the only attached
panel. -/
theorem at_most_one_active_surface (evs : List UiEvent) :
    (runUi evs).panels.length ≤ 1 ∧
    (∀ p ∈ (runUi evs).panels, (runUi evs).activeUI = some p) := by
  have h := uiInv_runUi evs
  unfold UiInv at h
  cases ha : (runUi evs).activeUI with
  | none =>
    rw [ha] at h
    dsimp only at h
    rw [h]
    exact ⟨by simp, by simp⟩
  | some p =>
    rw [ha] at h
    dsimp only at h
    rw [h]
    refine ⟨by simp, ?_⟩
    intro q hq
    rw [List.mem_singleton] at hq
    simp [hq, ha]

/-- C7, witness: opening a second panel removes the first; after two
`openPanel` events only panel 1 is attached and active. -/
theorem at_most_one_active_surface_witness :
    (runUi [UiEvent.openPanel, UiEvent.openPanel]).activeUI = some 1 ∧
    (runUi [UiEvent.openPanel, UiEvent.openPanel]).panels.length ≤ 1 :=
  ⟨(at_most_one_active_surface [UiEvent.openPanel, UiEvent.openPanel]).2 1 (by decide),
   (at_most_one_active_surface [UiEvent.openPanel, UiEvent.openPanel]).1⟩

end OneTap

namespace OneTap

/-! ### The Context record (Claims C1 and C9)

`context.authorInfo` starts as the empty string, is replaced by a
`{name, subscribers}` record on YouTube, and by a plain author string on
LinkedIn (whose `.name` access is `undefined`). -/

inductive AuthorInfo
  | emptyStr
  | yt (name subscribers : String)
  | li (author : String)
  deriving DecidableEq, Repr

structure CommentData where
  author : String
  text : String
  likes : Option String
  deriving DecidableEq, Repr

/-- The context record built by `extractComprehensiveContext`.  `topics` is
only assigned at the end of a successful extraction; the JS object simply
lacks the property before that, modelled by the `[]` default.  `videoStats`
and `postType` are the platform-specific extra properties. -/
structure Context where
  platform : String
  postContent : String
  postTitle : String
  authorInfo : AuthorInfo
  existingComments : List CommentData
  timestamp : String
  sentiment : String
  topics : List String
  videoStats : Option (String × Option String)
  postType : Option String
  deriving DecidableEq, Repr

/-! ### Fallback reply templates (`generateFallbackReplies`, part_000
lines 844-879) -/

/-- JS `a || b` on strings: the empty string is falsy. -/
def jsOrStr (s fb : String) : String := if s = "" then fb else s

/-- JS `arr[i]` in string-concatenation position: an out-of-range access
yields `undefined`, which concatenation stringifies as `"undefined"`. -/
def idxStr (l : List String) (i : Nat) : String := (l.get? i).getD "undefined"

/-- JS `arr[i] || fb`: both an out-of-range access and an empty string fall
through to `fb`. -/
def idxOr (l : List String) (i : Nat) (fb : String) : String :=
  jsOrStr ((l.get? i).getD "") fb

def jsCharToUpper (c : Char) : Char :=
  if c.toNat ≥ 97 && c.toNat ≤ 122 then Char.ofNat (c.toNat - 32) else c

/-- `s.charAt(0).toUpperCase() + s.slice(1)`. -/
def capFirst (s : String) : String :=
  match s.toList with
  | [] => ""
  | c :: cs => String.mk (jsCharToUpper c :: cs)

/-- `name.split(' ')[0]`. -/
def firstName (n : String) : String := (splitOnChar ' ' n).headD ""

/-- Truthiness of `context.authorInfo?.name`: only the YouTube record has a
`name` property, and it must be non-empty. -/
def authorNameTruthy : AuthorInfo → Bool
  | .yt n _ => n ≠ ""
  | _ => false

/-- `context.authorInfo.name.split(' ')[0]`, used only under the guard. -/
def authorFirstName : AuthorInfo → String
  | .yt n _ => firstName n
  | _ => ""

def supportiveTemplates (c : Context) : List String :=
  ["Really appreciate you sharing this" ++
     (if strTruthy c.postTitle then " about " ++ idxStr c.topics 0 else "") ++
     "! " ++
     (if c.sentiment = "positive" then "Your enthusiasm is contagious! üåü"
      else "Thanks for the thoughtful perspective."),
   "This resonates with me so much" ++
     (if c.topics.length > 0 then ", especially the point about " ++ idxStr c.topics 0
      else "") ++
     ". Keep up the great work! üí™",
   "Love seeing content like this" ++
     (if authorNameTruthy c.authorInfo then " from " ++ authorFirstName c.authorInfo
      else "") ++
     ". " ++
     (if c.sentiment = "positive" then "Your positivity is inspiring!"
      else "Really valuable insights here.")]

def analyticalTemplates (c : Context) : List String :=
  ["Interesting perspective" ++
     (if c.topics.length > 0 then " on " ++ idxStr c.topics 0 else "") ++
     ". Have you considered how this might impact " ++
     idxOr c.topics 1 "the broader industry" ++ "?",
   "The point about " ++ idxOr c.topics 0 "this topic" ++
     " is particularly compelling. What led you to this conclusion?",
   "This aligns with some recent trends I've noticed" ++
     (if c.topics.length > 0 then " in " ++ idxStr c.topics 0 else "") ++
     ". Would love to hear more about your experience with this."]

def conversationalTemplates (c : Context) : List String :=
  ["Totally get what you mean" ++
     (if c.topics.length > 0 then " about " ++ idxStr c.topics 0 else "") ++
     "! " ++
     (if c.sentiment = "positive" then "Had a similar experience recently üòä"
      else "Been thinking about this too lately."),
   "This is so relatable" ++
     (if authorNameTruthy c.authorInfo then " " ++ authorFirstName c.authorInfo
      else "") ++
     "! " ++
     (if c.topics.length > 0 then
        capFirst (idxStr c.topics 0) ++ " is such a hot topic right now."
      else "Thanks for sharing your thoughts."),
   "Love this take" ++
     (if c.topics.length > 0 then " on " ++ idxStr c.topics 0 else "") ++
     "! Mind if I ask what got you interested in this area?"]

def questionTemplates (c : Context) : List String :=
  ["Really curious about your thoughts on " ++ idxOr c.topics 0 "this topic" ++
     ". What's been your experience with it?",
   "This is fascinating! How did you first get involved with " ++
     idxOr c.topics 0 "this area" ++ "?",
   "Great insights" ++
     (if authorNameTruthy c.authorInfo then " " ++ authorFirstName c.authorInfo
      else "") ++
     "! What would you say is the biggest challenge in " ++
     idxOr c.topics 0 "this field" ++ " right now?"]

def humorousTemplates (c : Context) : List String :=
  [(if c.sentiment = "positive" then "Your enthusiasm is infectious! üòÑ"
    else "Well, that escalated quickly! üòÖ") ++
     " " ++
     (if c.topics.length > 0 then "The " ++ idxStr c.topics 0 ++ " struggle is real!"
      else "Can totally relate to this!"),
   "Plot twist: I was just thinking about this exact thing! " ++
     (if c.topics.length > 0 then
        "Great minds think about " ++ idxStr c.topics 0 ++ " apparently üß†"
      else "Universe works in mysterious ways! üåü"),
   "Not me reading this and nodding like I'm in a meeting üòÇ " ++
     (if c.topics.length > 0 then capFirst (idxStr c.topics 0) ++ " hits different!"
      else "So accurate it hurts!")]

def professionalTemplates (c : Context) : List String :=
  ["Thank you for sharing these insights" ++
     (if c.topics.length > 0 then " on " ++ idxStr c.topics 0 else "") ++
     ". This perspective adds valuable context to the current industry discussion.",
   "Excellent analysis" ++
     (if authorNameTruthy c.authorInfo then ", " ++ authorFirstName c.authorInfo
      else "") ++
     ". The point about " ++ idxOr c.topics 0 "this approach" ++
     " particularly resonates with current best practices.",
   "This contributes meaningfully to the conversation around " ++
     idxOr c.topics 0 "this topic" ++
     ". Would be interested to connect and discuss further."]

/-- `generateFallbackReplies(context, tone)`: fixed per-tone template table,
with `templates[tone] || templates.conversational` for unknown tones. -/
def generateFallbackReplies (c : Context) (tone : String) : List String :=
  match tone with
  | "supportive" => supportiveTemplates c
  | "analytical" => analyticalTemplates c
  | "conversational" => conversationalTemplates c
  | "question" => questionTemplates c
  | "humorous" => humorousTemplates c
  | "professional" => professionalTemplates c
  | _ => conversationalTemplates c

/-! ### Remote generation (`callAIAPI` and callers, Claim C1) -/

inductive JsError
  | referenceError
  | apiError (status : Nat)
  | fetchFailure
  | allApisFailed
  | domError
  deriving DecidableEq, Repr

/-- Outcome of `fetch` + `response.json()` as seen by `callAIAPI`: either the
request failed (network error, or the 10-second watchdog aborted it), or a
response arrived with its `ok` flag, status code, and the generated text
extracted from the provider-specific JSON shape (`none` when the expected
field is absent, which the `|| []` / `|| ''` defaults turn into no lines). -/
inductive FetchOutcome
  | failure
  | response (ok : Bool) (status : Nat) (content : Option String)
  deriving DecidableEq, Repr

/-- `content.split('\n').filter(line => line.trim())`. -/
def parseReplyLines (content : String) : List String :=
  (splitOnChar '\n' content).filter (fun l => jsTrim l ≠ "")

/-- `replies = replies.slice(0, 3); while (replies.length < 3)
replies.push(`Great ${tone} reply about this topic!`)`: the template literal
references `tone`, which is not a parameter of `callAIAPI(apiConfig, prompt)`
nor bound in any enclosing scope, so the first loop iteration throws a
`ReferenceError` instead of padding. -/
def ensureThreeReplies (replies : List String) : Except JsError (List String) :=
  let replies := replies.take 3
  if replies.length < 3 then .error .referenceError else .ok replies

/-- `callAIAPI` (part_000 lines 766-839): non-ok responses throw, ok
responses are line-parsed and then forced to exactly three replies. -/
def callAIAPI (outcome : FetchOutcome) : Except JsError (List String) :=
  match outcome with
  | .failure => .error .fetchFailure
  | .response ok status content =>
    if !ok then .error (.apiError status)
    else ensureThreeReplies (parseReplyLines (content.getD ""))

/-- `generateContextAwareReplies` (part_000 lines 683-700): primary endpoint,
then fallback endpoint, then `throw new Error('All APIs failed')`. -/
def generateContextAwareReplies (primary fallback : FetchOutcome) :
    Except JsError (List String) :=
  match callAIAPI primary with
  | .ok r => .ok r
  | .error _ =>
    match callAIAPI fallback with
    | .ok r => .ok r
    | .error _ => .error .allApisFailed

/-- The replies `generateAndShowReplies` (part_000 lines 632-678) finally
renders: the remote result on success, the per-tone templates once any error
is caught. -/
def displayedReplies (c : Context) (tone : String)
    (primary fallback : FetchOutcome) : List String :=
  match generateContextAwareReplies primary fallback with
  | .ok r => r
  | .error _ => generateFallbackReplies c tone

theorem ne_empty_append (s t : String) (h : s ≠ "") : s ++ t ≠ "" := by
  intro he
  apply h
  obtain ⟨ds⟩ := s
  obtain ⟨dt⟩ := t
  have had : ds ++ dt = ([] : List Char) := congrArg String.data he
  have hds := (List.append_eq_nil.mp had).1
  rw [hds]

theorem generateFallbackReplies_spec (c : Context) (tone : String) :
    (generateFallbackReplies c tone).length = 3 ∧
    (generateFallbackReplies c tone).all (fun r => r != "") = true := by
  have htpl : ∀ l : List String,
      (l = supportiveTemplates c ∨ l = analyticalTemplates c ∨
       l = conversationalTemplates c ∨ l = questionTemplates c ∨
       l = humorousTemplates c ∨ l = professionalTemplates c) →
      l.length = 3 ∧ l.all (fun r => r != "") = true := by
    intro l hl
    rcases hl with rfl | rfl | rfl | rfl | rfl | rfl <;>
      refine ⟨rfl, ?_⟩ <;>
      simp only [supportiveTemplates, analyticalTemplates,
        conversationalTemplates, questionTemplates, humorousTemplates,
        professionalTemplates, List.all_cons, List.all_nil,
        Bool.and_eq_true, bne_iff_ne, ne_eq, Bool.and_true] <;>
      refine ⟨?_, ?_, ?_⟩ <;>
      · repeat apply ne_empty_append
        first
          | decide
          | (split <;> decide)
  unfold generateFallbackReplies
  split <;> apply htpl <;> simp

theorem callAIAPI_ok_spec {o : FetchOutcome} {r : List String}
    (h : callAIAPI o = .ok r) :
    r.length = 3 ∧ r.all (fun x => x != "") = true := by
  cases o with
  | failure => exact absurd h (by simp [callAIAPI])
  | response ok status content =>
    cases ok with
    | false => exact absurd h (by simp [callAIAPI])
    | true =>
      have h' :
          (if ((parseReplyLines (content.getD "")).take 3).length < 3 then
             (Except.error JsError.referenceError : Except JsError (List String))
           else .ok ((parseReplyLines (content.getD "")).take 3)) = .ok r := h
      split at h'
      · exact absurd h' (by simp)
      · next hlen =>
        have hr : (parseReplyLines (content.getD "")).take 3 = r := by
          simpa using h'
        subst hr
        constructor
        · have := List.length_take 3 (parseReplyLines (content.getD ""))
          omega
        · rw [List.all_eq_true]
          intro x hx
          have hx' : x ∈ parseReplyLines (content.getD "") :=
            List.take_subset 3 _ hx
          unfold parseReplyLines at hx'
          have hp := of_decide_eq_true (List.mem_filter.mp hx').2
          rw [bne_iff_ne]
          intro he
          rw [he] at hp
          exact hp rfl

theorem gen_ok_cases {p f : FetchOutcome} {r : List String}
    (h : generateContextAwareReplies p f = .ok r) :
    callAIAPI p = .ok r ∨ callAIAPI f = .ok r := by
  unfold generateContextAwareReplies at h
  revert h
  cases hp : callAIAPI p with
  | ok rp =>
    intro h
    left
    exact h
  | error e =>
    cases hf : callAIAPI f with
    | ok rf =>
      intro h
      right
      exact h
    | error e' =>
      intro h
      exact Except.noConfusion h

/-- C1 (code bug, evaluated at the failing input): a successful remote
response whose body parses to fewer than 3 non-empty lines makes `callAIAPI`
throw a `ReferenceError` — the pad loop's template literal references `tone`,
which is not in scope inside `callAIAPI` — instead of padding the list to 3
as the spec (and the code's own `// Ensure we have exactly 3 replies`
comment) intends.  The displayed result is still always exactly 3 non-empty
strings, but on this input only because the error is caught and the
per-tone template fallback takes over. -/
theorem callAIAPI_short_response_throws :
    parseReplyLines "Nice post!" = ["Nice post!"] ∧
    callAIAPI (.response true 200 (some "Nice post!")) = .error .referenceError ∧
    (∀ (c : Context) (tone : String) (primary fallback : FetchOutcome),
      (displayedReplies c tone primary fallback).length = 3 ∧
      (displayedReplies c tone primary fallback).all (fun r => r != "") = true) := by
  refine ⟨rfl, rfl, fun c tone primary fallback => ?_⟩
  unfold displayedReplies
  cases hg : generateContextAwareReplies primary fallback with
  | ok r =>
    rcases gen_ok_cases hg with h | h <;> exact callAIAPI_ok_spec h
  | error e =>
    exact generateFallbackReplies_spec c tone

end OneTap

namespace OneTap

/-! ### Context extraction (Claim C9)

A host DOM element as read by the extractor: text data, class list,
attributes, scoped sub-queries (`element.querySelector` /
`element.querySelectorAll`) and the parent link for ancestor walks. -/

inductive Elem where
  | mk (textContent : String) (classList : List String)
       (attr : String → Option String)
       (sub : String → Option Elem)
       (subAll : String → List Elem)
       (parent : Option Elem)

def Elem.textContent : Elem → String
  | .mk t _ _ _ _ _ => t

def Elem.classList : Elem → List String
  | .mk _ c _ _ _ _ => c

def Elem.attr : Elem → String → Option String
  | .mk _ _ a _ _ _ => a

def Elem.sub : Elem → String → Option Elem
  | .mk _ _ _ s _ _ => s

def Elem.subAll : Elem → String → List Elem
  | .mk _ _ _ _ s _ => s

def Elem.parent : Elem → Option Elem
  | .mk _ _ _ _ _ p => p

/-- Document-level query interface.  Each query may fail, modelling the host
anomalies (unexpected markup states) the extractor's `catch` defends
against; `.ok none` / `.ok []` is the ordinary no-match result. -/
structure HostDoc where
  query : String → Except JsError (Option Elem)
  queryAll : String → Except JsError (List Elem)

/-- First-match-wins fallback over a prioritized selector list (the
`for (const selector of ...)` loops of the YouTube getters). -/
def queryChain (d : HostDoc) : List String → Except JsError (Option Elem)
  | [] => .ok none
  | sel :: rest => do
    match ← d.query sel with
    | some el => return some el
    | none => queryChain d rest

def titleSelectors : List String :=
  ["h1.title yt-formatted-string", "#title h1",
   ".ytd-video-primary-info-renderer h1", "h1[class*=\"title\"]"]

def descSelectors : List String :=
  ["#description-text", "#description ytd-expandable-text",
   ".ytd-expandable-video-description-body-renderer", "#description-inline-expander"]

/-- `getYouTubeTitle` (part_000 lines 352-367). -/
def getYouTubeTitle (d : HostDoc) : Except JsError String := do
  match ← queryChain d titleSelectors with
  | some el => return jsTrim el.textContent
  | none => return ""

/-- `getYouTubeDescription` (part_000 lines 372-387). -/
def getYouTubeDescription (d : HostDoc) : Except JsError String := do
  match ← queryChain d descSelectors with
  | some el => return jsTake (jsTrim el.textContent) 1000
  | none => return ""

/-- `getYouTubeChannelInfo` (part_000 lines 392-400); missing elements give
empty-string fields, never an exception. -/
def getYouTubeChannelInfo (d : HostDoc) : Except JsError AuthorInfo := do
  let channelName ← d.query "#channel-name a, .ytd-channel-name a"
  let subscriberCount ← d.query "#owner-sub-count"
  return .yt
    (match channelName with | some el => jsTrim el.textContent | none => "")
    (match subscriberCount with | some el => jsTrim el.textContent | none => "")

/-- `getYouTubeStats` (part_000 lines 405-413); the likes field is the
`aria-label` attribute value, which may be null (`none`); a missing button
yields the empty string. -/
def getYouTubeStats (d : HostDoc) : Except JsError (String × Option String) := do
  let views ← d.query ".view-count"
  let likes ← d.query "#segmented-like-button button"
  return ((match views with | some el => jsTrim el.textContent | none => ""),
          (match likes with | some el => el.attr "aria-label" | none => some ""))

/-- `getCommentLikes` (part_000 lines 442-445). -/
def getCommentLikes (commentElement : Elem) : String :=
  match commentElement.sub "#vote-count-middle" with
  | some el => jsTrim el.textContent
  | none => "0"

/-- `getYouTubeComments` (part_000 lines 418-437): first 5 threads, comment
text capped at 200 characters, threads missing text or author skipped. -/
def getYouTubeComments (d : HostDoc) : Except JsError (List CommentData) := do
  let commentElements ← d.queryAll "ytd-comment-thread-renderer"
  return (commentElements.take 5).foldl
    (fun comments el =>
      match el.sub "#content-text", el.sub "#author-text" with
      | some ct, some au =>
          comments ++ [⟨jsTrim au.textContent, jsTake (jsTrim ct.textContent) 200,
                        some (getCommentLikes el)⟩]
      | _, _ => comments)
    []

/-- `findLinkedInPost` (part_000 lines 493-506): walk up at most 10 ancestors
looking for the post container class. -/
def findLinkedInPostGo : Option Elem → Nat → Option Elem
  | none, _ => none
  | some _, 0 => none
  | some el, fuel + 1 =>
    if el.classList.contains "feed-shared-update-v2" then some el
    else findLinkedInPostGo el.parent fuel

def findLinkedInPost (box : Elem) : Option Elem :=
  findLinkedInPostGo (some box) 10

structure LiPostData where
  content : String
  author : String
  comments : List CommentData
  type : String
  deriving DecidableEq, Repr

/-- `getLinkedInPostData` (part_000 lines 450-488): defaults when no post
container is found; comment text capped at 150 characters, at most 3
comments. -/
def getLinkedInPostData (box : Elem) : LiPostData :=
  match findLinkedInPost box with
  | none => ⟨"", "", [], "post"⟩
  | some postElement =>
    let content :=
      match postElement.sub ".feed-shared-text, .attributed-text-segment-list__content" with
      | some el => jsTrim el.textContent
      | none => ""
    let author :=
      match postElement.sub ".feed-shared-actor__name" with
      | some el => jsTrim el.textContent
      | none => ""
    let comments :=
      ((postElement.subAll ".comments-comment-item").take 3).foldl
        (fun cs el =>
          match el.sub ".attributed-text-segment-list__content",
              el.sub ".comments-post-meta__name" with
          | some ct, some au =>
              cs ++ [⟨jsTrim au.textContent, jsTake (jsTrim ct.textContent) 150, none⟩]
          | _, _ => cs)
        []
    ⟨content, author, comments, "post"⟩

/-- The context literal at the top of `extractComprehensiveContext`
(part_000 lines 310-318).  The JS object has no `topics`/`videoStats`/
`postType` properties yet; absent properties are modelled by the defaults. -/
def initContext (isYouTube : Bool) (timestamp : String) : Context :=
  { platform := if isYouTube then "YouTube" else "LinkedIn"
    postContent := "", postTitle := "", authorInfo := .emptyStr
    existingComments := [], timestamp := timestamp, sentiment := "neutral"
    topics := [], videoStats := none, postType := none }

/-- The two pure analyzer assignments at the end of the `try` block. -/
def finishAnalysis (c : Context) : Context :=
  { c with sentiment := analyzeSentiment c.postContent,
           topics := extractTopics c.postContent }

/-- The `try` block of `extractComprehensiveContext` (part_000 lines
320-340) as sequential field assignments: the returned context is the state
reached when the first exception (if any) is thrown, paired with that
exception. -/
def extractBody (isYouTube isLinkedIn : Bool) (d : HostDoc) (box : Elem)
    (ctx0 : Context) : Context × Option JsError :=
  if isYouTube then
    match getYouTubeTitle d with
    | .error e => (ctx0, some e)
    | .ok title =>
      let c1 := { ctx0 with postTitle := title }
      match getYouTubeDescription d with
      | .error e => (c1, some e)
      | .ok desc =>
        let c2 := { c1 with postContent := desc }
        match getYouTubeChannelInfo d with
        | .error e => (c2, some e)
        | .ok ai =>
          let c3 := { c2 with authorInfo := ai }
          match getYouTubeComments d with
          | .error e => (c3, some e)
          | .ok cms =>
            let c4 := { c3 with existingComments := cms }
            match getYouTubeStats d with
            | .error e => (c4, some e)
            | .ok vs => (finishAnalysis { c4 with videoStats := some vs }, none)
  else if isLinkedIn then
    let pd := getLinkedInPostData box
    (finishAnalysis
      { ctx0 with postContent := pd.content, authorInfo := .li pd.author,
                  existingComments := pd.comments, postType := some pd.type },
     none)
  else
    (finishAnalysis ctx0, none)

/-- `extractComprehensiveContext` (part_000 lines 309-347): the `catch`
overwrites `postContent` with the sentinel on the partially-built context and
the function always returns a `Context`, never an exception. -/
def extractComprehensiveContext (isYouTube isLinkedIn : Bool) (d : HostDoc)
    (box : Elem) (timestamp : String) : Context :=
  match extractBody isYouTube isLinkedIn d box (initContext isYouTube timestamp) with
  | (ctx, none) => ctx
  | (ctx, some _) => { ctx with postContent := "Unable to extract post content" }

theorem queryChain_none {d : HostDoc} (h : ∀ sel, d.query sel = .ok none) :
    ∀ sels, queryChain d sels = .ok none := by
  intro sels
  induction sels with
  | nil => rfl
  | cons sel rest ih =>
    rw [queryChain, h sel]
    exact ih

/-- C9: context extraction never raises.  It is a total function into
`Context`; whenever the platform extraction body throws, the returned
best-effort context carries the sentinel content string (the other fields
hold whatever had been extracted so far, i.e. the initial empty/default
values for everything at or after the failure point); on a successful body
the context is returned as built; and missing expected elements are handled
inside the sub-extractors by empty/default field values, never by raising. -/
theorem extractContext_never_raises :
    (∀ (yt li : Bool) (d : HostDoc) (box : Elem) (ts : String) (e : JsError),
        (extractBody yt li d box (initContext yt ts)).2 = some e →
        (extractComprehensiveContext yt li d box ts).postContent
            = "Unable to extract post content") ∧
    (∀ (yt li : Bool) (d : HostDoc) (box : Elem) (ts : String),
        (extractBody yt li d box (initContext yt ts)).2 = none →
        extractComprehensiveContext yt li d box ts
            = (extractBody yt li d box (initContext yt ts)).1) ∧
    (∀ d : HostDoc, (∀ sel, d.query sel = .ok none) →
        getYouTubeTitle d = .ok "" ∧ getYouTubeDescription d = .ok "" ∧
        getYouTubeChannelInfo d = .ok (.yt "" "") ∧
        getYouTubeStats d = .ok ("", some "")) ∧
    (∀ box : Elem, findLinkedInPost box = none →
        getLinkedInPostData box = ⟨"", "", [], "post"⟩) := by
  refine ⟨?_, ?_, ?_, ?_⟩
  · intro yt li d box ts e h
    unfold extractComprehensiveContext
    have hp := (Prod.mk.eta
      (p := extractBody yt li d box (initContext yt ts))).symm
    rw [h] at hp
    rw [hp]
  · intro yt li d box ts h
    unfold extractComprehensiveContext
    have hp := (Prod.mk.eta
      (p := extractBody yt li d box (initContext yt ts))).symm
    rw [h] at hp
    rw [hp]
  · intro d h
    refine ⟨?_, ?_, ?_, ?_⟩
    · unfold getYouTubeTitle
      rw [queryChain_none h titleSelectors]
      rfl
    · unfold getYouTubeDescription
      rw [queryChain_none h descSelectors]
      rfl
    · unfold getYouTubeChannelInfo
      rw [h "#channel-name a, .ytd-channel-name a", h "#owner-sub-count"]
      rfl
    · unfold getYouTubeStats
      rw [h ".view-count", h "#segmented-like-button button"]
      rfl
  · intro box h
    unfold getLinkedInPostData
    rw [h]

/-- A document on which every DOM access throws. -/
def brokenDoc : HostDoc :=
  ⟨fun _ => .error .domError, fun _ => .error .domError⟩

/-- A document on which every query finds nothing. -/
def emptyDoc : HostDoc := ⟨fun _ => .ok none, fun _ => .ok []⟩

/-- A bare element: no text, classes, attributes, children or parent. -/
def bareElem : Elem := .mk "" [] (fun _ => none) (fun _ => none) (fun _ => []) none

/-- C9, witness: on a document whose every access throws, extraction still
returns a context, with the sentinel content; on an element-less document
the sub-extractors return defaults; a box with no post ancestor yields the
default LinkedIn post data. -/
theorem extractContext_never_raises_witness :
    (extractComprehensiveContext true false brokenDoc bareElem "t0").postContent
        = "Unable to extract post content" ∧
    getYouTubeTitle emptyDoc = .ok "" ∧
    getLinkedInPostData bareElem = ⟨"", "", [], "post"⟩ :=
  ⟨extractContext_never_raises.1 true false brokenDoc bareElem "t0"
      JsError.domError rfl,
   (extractContext_never_raises.2.2.1 emptyDoc (fun _ => rfl)).1,
   extractContext_never_raises.2.2.2 bareElem rfl⟩

end OneTap
